import Mathlib

/-!
Verification development for the multilayer-perceptron trainer in
`neural_network/multilayer_perceptron.go` (package `neuralNetwork`).

The Go code is shallowly embedded: `float64` matrix arithmetic is modelled over
`ℚ` (the claims under study are structural and algebraic, not about rounding),
matrices are a dimension pair plus a total entry function, and the external
collaborators that the file only imports (`gonum/mat` dense matrices, the lazy
view types `onesAddedMat` / `appliedMat` / `firstColumnRemovedMat`, the
`lm.Activations` / `lm.LossFunctions` / `base.Solvers` registries,
`base.DenseShuffle`, `rand.Float64`) are modelled from the spec where their
behaviour matters and otherwise passed in as explicit parameters, exactly as
the training driver treats them as plug-ins.
-/

/-- A dense 2-D rational matrix: the shape is explicit and entries are a total
function (reads outside the shape are junk, as a Go out-of-range access would
panic).  Models `gonum/mat.Dense` as consumed by the source file. -/
structure Mat where
  rows : Nat
  cols : Nat
  data : Nat → Nat → ℚ

/-- The empty matrix, stand-in for a `nil` `*mat.Dense` that is dereferenced. -/
def emptyMat : Mat := ⟨0, 0, fun _ _ => 0⟩

/-- The all-zero matrix, as allocated by `mat.NewDense(r, c, nil)`. -/
def zeroMat (r c : Nat) : Mat := ⟨r, c, fun _ _ => 0⟩

/-- Matrix transpose, modelling `mat.Matrix.T()`. -/
def transposeM (A : Mat) : Mat := ⟨A.cols, A.rows, fun i j => A.data j i⟩

/-- Modelled from the spec: the bias-augmented lazy view `onesAddedMat`
(logical column 0 is constant 1, columns ≥ 1 mirror the underlying matrix). -/
def onesAdded (A : Mat) : Mat :=
  ⟨A.rows, A.cols + 1, fun i j => if j = 0 then 1 else A.data i (j - 1)⟩

/-- Modelled from the spec: the elementwise-mapped lazy view `appliedMat`
(`at(r,c)` returns `f(underlying.at(r,c))`). -/
def matApply (f : ℚ → ℚ) (A : Mat) : Mat :=
  ⟨A.rows, A.cols, fun i j => f (A.data i j)⟩

/-- Modelled from the spec: the bias-trimmed lazy view `firstColumnRemovedMat`
(drops column 0 of the underlying matrix; the source applies it to a
transposed weight matrix, so the dropped column is the bias row). -/
def firstColumnRemoved (A : Mat) : Mat :=
  ⟨A.rows, A.cols - 1, fun i j => A.data i (j + 1)⟩

/-- Matrix product, modelling `mat.Dense.Mul` (inner dimension is the left
factor's column count, as gonum requires `A.cols = B.rows`). -/
def matMul (A B : Mat) : Mat :=
  ⟨A.rows, B.cols, fun i j => ((List.range A.cols).map (fun k => A.data i k * B.data k j)).sum⟩

/-- Elementwise difference, modelling `mat.Dense.Sub`. -/
def matSub (A B : Mat) : Mat :=
  ⟨A.rows, A.cols, fun i j => A.data i j - B.data i j⟩

/-- Elementwise sum, modelling `mat.Dense.Add`. -/
def matAdd (A B : Mat) : Mat :=
  ⟨A.rows, A.cols, fun i j => A.data i j + B.data i j⟩

/-- Elementwise (Hadamard) product, modelling `mat.Dense.MulElem`. -/
def matMulElem (A B : Mat) : Mat :=
  ⟨A.rows, A.cols, fun i j => A.data i j * B.data i j⟩

/-- Row permutation of a matrix; building block for the shuffle model. -/
def permRows (p : Nat → Nat) (A : Mat) : Mat :=
  ⟨A.rows, A.cols, fun i j => A.data (p i) j⟩

/-- Modelled from the spec: `base.DenseShuffle(X, Y)` performs a paired,
in-place shuffle of the rows of `X` and `Y` — a correlated row permutation,
the same permutation applied to both matrices. -/
def DenseShuffle (p : Nat → Nat) (X Y : Mat) : Mat × Mat :=
  (permRows p X, permRows p Y)

/-! ### The non-finite-value guard

`Predict` applies `panicIfNaN` to every element of a freshly written
prediction buffer.  Since `ℚ` has no non-finite values, the guard is modelled
over an explicit carrier of Go `float64` classes. -/

/-- Classification of a Go `float64` as the guard sees it: an ordinary finite
value, `+Inf`, `-Inf`, or `NaN`. -/
inductive GoF where
  | finite (q : ℚ)
  | posInf
  | negInf
  | nan
  deriving DecidableEq, Repr

/-- `math.IsNaN`. -/
def GoF.IsNaN : GoF → Bool
  | .nan => true
  | _ => false

/-- A non-finite value in the sense of the spec: `NaN` or `±Inf`. -/
def GoF.nonFinite : GoF → Bool
  | .finite _ => false
  | _ => true

/-- `panicIfNaN` (source lines 239–244): panics — modelled as `Except.error` —
exactly when the value is a `NaN`; any other value, including `±Inf`, is
returned unchanged. -/
def panicIfNaN (v : GoF) : Except String GoF :=
  if v.IsNaN then .error "NaN" else .ok v

/-- The live guard in `Predict` (source line 225):
`L.Ypred.Apply(func(_, _ int, v float64) float64 { return panicIfNaN(v) }, L.Ypred)`,
applied to every element of the prediction buffer; the first panic aborts. -/
def applyPanicIfNaN (M : List (List GoF)) : Except String (List (List GoF)) :=
  M.mapM (fun row => row.mapM panicIfNaN)

/-! ### Activations -/

/-- The activation strategies the source draws from the external registry
`lm.Activations`: `lm.Identity{}`, `lm.Logistic{}`, `lm.Tanh{}`, `lm.ReLU{}`.
The Go `Activation` is an interface value; which concrete strategy a layer
holds is all the driver logic depends on, so it is embedded as a tag. -/
inductive Activation where
  | identity
  | logistic
  | tanh
  | relu
  deriving DecidableEq, Repr

/-- Modelled from the spec: each activation's derivative `Fprime`, expressed
in terms of the forward output (spec §3: "derivative, expressed in terms of
the forward output, not raw input — required for the backprop formula used").
These output-form derivatives are exact over `ℚ`. -/
def Activation.Fprime : Activation → ℚ → ℚ
  | .identity, _ => 1
  | .logistic, y => y * (1 - y)
  | .tanh, y => 1 - y ^ 2
  | .relu, y => if 0 < y then 1 else 0

/-- Modelled from the spec: the name → activation registry `lm.Activations`
(spec §6: "recognized identifiers include at least identity,
logistic/sigmoid, hyperbolic-tangent, and rectified-linear"). -/
def Activations (s : String) : Option Activation :=
  if s = "identity" then some .identity
  else if s = "logistic" then some .logistic
  else if s = "tanh" then some .tanh
  else if s = "relu" then some .relu
  else none

/-! ### Optimizer and loss plug-in contracts -/

/-- Modelled from the spec: an `OptimizerInstance` is per-layer mutable state
plus one operation, update-from-gradient (spec §3).  The state is an opaque
list of numbers; the rule maps state and gradient to an update and new state. -/
structure Optimizer where
  state : List ℚ
  rule : List ℚ → Mat → Mat × List ℚ

/-- `base.Optimizer.GetUpdate(update, grad)`: writes the update matrix and
advances the optimizer's internal state. -/
def Optimizer.GetUpdate (o : Optimizer) (grad : Mat) : Mat × Optimizer :=
  let r := o.rule o.state grad
  (r.1, ⟨r.2, o.rule⟩)

/-- `base.OptimCreator` (source line 67: `type OptimCreator = base.OptimCreator`);
each layer gets a fresh instance with this initial value. -/
abbrev OptimCreator := Optimizer

/-- Modelled from the spec: the `LossStrategy` contract (spec §3): a function
of (targets, bias-augmented inputs, weights, predictions, diff, L2-weight,
L1-ratio, sample-count, activation) returning the scalar loss and the filled
gradient buffer.  This is the shape of `lm.LossFunctions[...]` as invoked at
source line 181. -/
abbrev LossT :=
  Mat → Mat → Mat → Mat → Mat → ℚ → ℚ → Nat → Activation → ℚ × Mat

/-- The type of a numeric interpretation of the registry's forward maps
`F`: the logistic and tanh forward maps are transcendental, so they enter the
model as an explicit parameter of this type rather than as fixed rational
functions. -/
abbrev ActivationF := Activation → ℚ → ℚ

/-! ### Layers -/

/-- `Layer` (source lines 23–27): an activation, the weight matrix `Theta`,
the per-batch buffers, and an attached optimizer instance.  Buffers start as
Go `nil` pointers, modelled by `Option`. -/
structure Layer where
  Activation : Activation
  Theta : Mat
  Ytrue : Option Mat := none
  Ypred : Option Mat := none
  Ydiff : Option Mat := none
  Grad : Option Mat := none
  Update : Option Mat := none
  Optimizer : Optimizer

/-- A junk layer standing in for a Go nil-dereference on an empty slice. -/
def dummyLayer : Layer :=
  { Activation := .identity, Theta := emptyMat, Optimizer := ⟨[], fun s _ => (emptyMat, s)⟩ }

/-- Indexing into a layer slice with a junk default. -/
def layerAt (ls : List Layer) (i : Nat) : Layer :=
  (ls.get? i).getD dummyLayer

/-- `NewLayer` (source lines 30–34): a randomly initialized layer.  The random
draws of `rand.Float64()` enter as the explicit stream `rng`; the source
stores `0.01 * rand.Float64()` at every weight entry, and leaves all buffers
nil. -/
def NewLayer (inputs outputs : Nat) (activation : Activation) (optimizer : Optimizer)
    (rng : Nat → Nat → ℚ) : Layer :=
  { Activation := activation
    Theta := ⟨inputs, outputs, fun i j => (1 / 100) * rng i j⟩
    Optimizer := optimizer }

/-- `Layer.Init` (source lines 37–44): allocate the per-batch buffers —
`Ypred`, `Ytrue`, `Ydiff` of shape (samples, outputs) and `Grad`, `Update` of
shape (1+inputs, outputs), where outputs is `Theta`'s column count. -/
def Layer.Init (L : Layer) (samples inputs : Nat) : Layer :=
  let outputs := L.Theta.cols
  { L with
    Ypred := some (zeroMat samples outputs)
    Ytrue := some (zeroMat samples outputs)
    Ydiff := some (zeroMat samples outputs)
    Grad := some (zeroMat (1 + inputs) outputs)
    Update := some (zeroMat (1 + inputs) outputs) }

/-! ### Forward propagation

`Predict` (source lines 202–231): for each layer in order, the input is the
external `X` for layer 0 and the previous layer's prediction buffer
otherwise; buffers are allocated on first use (`if L.Ypred == nil`); then
`Ypred := activation.F(onesAdded(input) × Theta)`.  The activation's forward
map `F` lives in the external `lm` package and is not rational for logistic
and tanh, so it enters the model as the explicit interpretation `Fimpl`. -/

/-- The per-layer loop body of `Predict`, recursing input-to-output. -/
def forwardLayers (Fimpl : Activation → ℚ → ℚ) : Mat → List Layer → List Layer
  | _, [] => []
  | X, L :: rest =>
    let L1 := if L.Ypred.isNone then L.Init X.rows X.cols else L
    let Ypred := matApply (Fimpl L1.Activation) (matMul (onesAdded X) L1.Theta)
    let L2 := { L1 with Ypred := some Ypred }
    L2 :: forwardLayers Fimpl Ypred rest

/-! ### Backward propagation

The body of the `for l := outputLayer; l >= 0; l--` loop in `Fit` (source
lines 154–194), embedded as a recursion that processes the layer list from
the output end first — exactly the order of the source loop, so when an
interior layer is processed, the next layer's buffers and weights have
already been written for this epoch. -/

/-- The backward pass over a layer list whose head is the lowest layer. `Xl`
is the input feeding the head layer; `Y` the external target matrix.  Returns
the processed layers and the loss value recorded at the output layer. -/
def backwardLayers (lossF : LossT) (alpha l1Ratio : ℚ) (nSamples : Nat) (Y : Mat) :
    Mat → List Layer → List Layer × ℚ
  | _, [] => ([], 0)
  | Xl, [L] =>
    let Ypred := L.Ypred.getD emptyMat
    let Ytrue := Y
    let Ydiff := matSub Ypred Y
    let JG := lossF Ytrue (onesAdded Xl) L.Theta Ypred Ydiff alpha l1Ratio nSamples L.Activation
    let upd := L.Optimizer.GetUpdate JG.2
    ([{ L with Ytrue := some Ytrue, Ydiff := some Ydiff, Grad := some JG.2,
               Update := some upd.1, Theta := matAdd L.Theta upd.1, Optimizer := upd.2 }],
     JG.1)
  | Xl, L :: next :: rest =>
    let tailR := backwardLayers lossF alpha l1Ratio nSamples Y (L.Ypred.getD emptyMat) (next :: rest)
    let nL := (tailR.1.get? 0).getD dummyLayer
    let Ypred := L.Ypred.getD emptyMat
    let Ydiff0 := matMul (nL.Ydiff.getD emptyMat) (firstColumnRemoved (transposeM nL.Theta))
    let Ydiff := matMulElem Ydiff0 (matApply L.Activation.Fprime Ypred)
    let Ytrue := matSub Ypred Ydiff
    let JG := lossF Ytrue (onesAdded Xl) L.Theta Ypred Ydiff alpha l1Ratio nSamples L.Activation
    let upd := L.Optimizer.GetUpdate JG.2
    ({ L with Ytrue := some Ytrue, Ydiff := some Ydiff, Grad := some JG.2,
              Update := some upd.1, Theta := matAdd L.Theta upd.1, Optimizer := upd.2 } :: tailR.1,
     tailR.2)

/-- Modelled from the spec: the backward pass as claim C3 reads it — identical
to `backwardLayers` except that an interior layer's `Ydiff` is computed from
the next layer's *pre-update* weights (spec §4.3: "weights for layer `l+1`
must not be mutated before layer `l`'s backward step reads them"), while still
using the next layer's already-computed diff for this epoch. -/
def backwardLayersPre (lossF : LossT) (alpha l1Ratio : ℚ) (nSamples : Nat) (Y : Mat) :
    Mat → List Layer → List Layer × ℚ
  | _, [] => ([], 0)
  | Xl, [L] =>
    let Ypred := L.Ypred.getD emptyMat
    let Ytrue := Y
    let Ydiff := matSub Ypred Y
    let JG := lossF Ytrue (onesAdded Xl) L.Theta Ypred Ydiff alpha l1Ratio nSamples L.Activation
    let upd := L.Optimizer.GetUpdate JG.2
    ([{ L with Ytrue := some Ytrue, Ydiff := some Ydiff, Grad := some JG.2,
               Update := some upd.1, Theta := matAdd L.Theta upd.1, Optimizer := upd.2 }],
     JG.1)
  | Xl, L :: next :: rest =>
    let tailR := backwardLayersPre lossF alpha l1Ratio nSamples Y (L.Ypred.getD emptyMat) (next :: rest)
    let nL := (tailR.1.get? 0).getD dummyLayer
    let Ypred := L.Ypred.getD emptyMat
    let Ydiff0 := matMul (nL.Ydiff.getD emptyMat) (firstColumnRemoved (transposeM next.Theta))
    let Ydiff := matMulElem Ydiff0 (matApply L.Activation.Fprime Ypred)
    let Ytrue := matSub Ypred Ydiff
    let JG := lossF Ytrue (onesAdded Xl) L.Theta Ypred Ydiff alpha l1Ratio nSamples L.Activation
    let upd := L.Optimizer.GetUpdate JG.2
    ({ L with Ytrue := some Ytrue, Ydiff := some Ydiff, Grad := some JG.2,
              Update := some upd.1, Theta := matAdd L.Theta upd.1, Optimizer := upd.2 } :: tailR.1,
     tailR.2)

/-! ### The regressor -/

/-- `MLPRegressor` (source lines 50–64).  Note the two distinct loss fields of
the source struct: `LossName` (never assigned anywhere in the file) and
`Loss` (set by the constructors and used to select the loss function).
Go zero values are the defaults. -/
structure MLPRegressor where
  Optimizer : OptimCreator
  LossName : String := ""
  Activation : Activation
  HiddenLayerSizes : List Nat := []
  Layers : List Layer := []
  Alpha : ℚ := 0
  L1Ratio : ℚ := 0
  Epochs : Int := 0
  MiniBatchSize : Int := 0
  Loss : String := ""
  JFirst : ℚ := 0
  J : ℚ := 0

/-- `NewMLPRegressor` (source lines 74–89): defaults activation to "relu" and
solver to "adam", resolves them through the external registries
(`lm.Activations`, `base.Solvers` — the solver registry enters as the
parameter `solvers`), sets `Loss` to "square" and leaves `LossName` at its
zero value.  An unknown activation name is a configuration error (spec §7);
the model falls back to a junk tag where Go would store a nil interface. -/
def NewMLPRegressor (solvers : String → OptimCreator) (hiddenLayerSizes : List Nat)
    (activation solver : String) (Alpha : ℚ) : MLPRegressor :=
  let activation := if activation = "" then "relu" else activation
  let solver := if solver = "" then "adam" else solver
  { Optimizer := solvers solver
    HiddenLayerSizes := hiddenLayerSizes
    Loss := "square"
    Activation := (Activations activation).getD .identity
    Alpha := Alpha }

/-- `NewMLPClassifier` (source lines 96–100): an `MLPRegressor` whose `Loss`
field is set to "log"; nothing else changes (in particular `LossName` stays
empty). -/
def NewMLPClassifier (solvers : String → OptimCreator) (hiddenLayerSizes : List Nat)
    (activation solver : String) (Alpha : ℚ) : MLPRegressor :=
  { NewMLPRegressor solvers hiddenLayerSizes activation solver Alpha with Loss := "log" }

/-- `Predict` (source lines 202–231): run the forward pass over the layers,
then clone the last layer's prediction buffer into the output argument. -/
def MLPRegressor.Predict (Fimpl : ActivationF) (regr : MLPRegressor) (X : Mat) :
    MLPRegressor × Mat :=
  let layers := forwardLayers Fimpl X regr.Layers
  ({ regr with Layers := layers }, ((layers.get? (layers.length - 1)).getD dummyLayer).Ypred.getD emptyMat)

/-- `Score` (source lines 234–237): `score := 0.; return score`. -/
def MLPRegressor.Score (_regr : MLPRegressor) (_X _Y : Mat) : ℚ :=
  let score : ℚ := 0
  score

/-! ### The epoch loop of `Fit` -/

/-- The mutable state threaded through the `for epoch` loop of `Fit`:
the (shuffled-in-place) data matrices, the layer list, and the two recorded
loss fields `J` and `JFirst`. -/
structure FitState where
  X : Mat
  Y : Mat
  layers : List Layer
  J : ℚ
  JFirst : ℚ

/-- One iteration of the epoch loop (source lines 151–194): shuffle `X` and
`Y` in place with the epoch's permutation, run the forward pass, run the
backward pass over all layers, record the output layer's loss in `J`, and in
`JFirst` when the loop counter equals 1. -/
def epochStep (lossF : LossT) (Fimpl : Activation → ℚ → ℚ) (shuffles : Nat → Nat → Nat)
    (alpha l1Ratio : ℚ) (nSamples : Nat) (epoch : Nat) (st : FitState) : FitState :=
  let sh := DenseShuffle (shuffles epoch) st.X st.Y
  let layers := forwardLayers Fimpl sh.1 st.layers
  let bk := backwardLayers lossF alpha l1Ratio nSamples sh.2 sh.1 layers
  { X := sh.1, Y := sh.2, layers := bk.1, J := bk.2,
    JFirst := if epoch = 1 then bk.2 else st.JFirst }

/-- The epoch loop itself: `count` remaining iterations starting at loop
counter `epoch`. -/
def fitEpochs (lossF : LossT) (Fimpl : Activation → ℚ → ℚ) (shuffles : Nat → Nat → Nat)
    (alpha l1Ratio : ℚ) (nSamples : Nat) (st : FitState) (epoch : Nat) : Nat → FitState
  | 0 => st
  | count + 1 =>
    fitEpochs lossF Fimpl shuffles alpha l1Ratio nSamples
      (epochStep lossF Fimpl shuffles alpha l1Ratio nSamples epoch st) (epoch + 1) count

/-- Layer construction from the hidden-layer width sequence (the first loop of
`Fit`, source lines 118–123): each hidden layer takes `1 + previous width`
inputs; `rng idx` is the random stream consumed by the `idx`-th `NewLayer`
call. -/
def createHiddenLayers (activation : Activation) (optC : OptimCreator)
    (rng : Nat → Nat → Nat → ℚ) : List Nat → Nat → Nat → List Layer
  | [], _, _ => []
  | outputs :: rest, prev, idx =>
    NewLayer (1 + prev) outputs activation optC (rng idx) ::
      createHiddenLayers activation optC rng rest outputs (idx + 1)

/-- The running `prevOutputs` after the hidden-layer loop: the last hidden
width, or the feature count when there are no hidden layers. -/
def lastOr (d : Nat) : List Nat → Nat
  | [] => d
  | x :: xs => lastOr x xs

/-- `Fit` (source lines 113–197).  External collaborators enter as parameters:
`lossFns` is the `lm.LossFunctions` registry, `Fimpl` interprets the forward
activation maps, `rng` supplies the `rand.Float64` draws of each `NewLayer`
call, and `shuffles` gives each epoch's `DenseShuffle` row permutation.
Returns the updated regressor together with the data matrices, which the
source shuffles in place. -/
def MLPRegressor.Fit (lossFns : String → LossT) (Fimpl : ActivationF)
    (rng : Nat → Nat → Nat → ℚ) (shuffles : Nat → Nat → Nat)
    (regr : MLPRegressor) (X Y : Mat) : MLPRegressor × Mat × Mat :=
  let nSamples := X.rows
  let nFeatures := X.cols
  let nOutputs := Y.cols
  -- create layers (lines 117–130)
  let hidden := regr.HiddenLayerSizes
  let layers0 := createHiddenLayers regr.Activation regr.Optimizer rng hidden nFeatures 0
  let prevOutputs := lastOr nFeatures hidden
  let lastActivation :=
    if regr.LossName = "cross-entropy" ∨ regr.LossName = "log" then Activation.logistic
    else regr.Activation
  let layers1 := layers0 ++
    [NewLayer (1 + prevOutputs) nOutputs lastActivation regr.Optimizer (rng hidden.length)]
  -- adjust size of first layer to X features (lines 133–138)
  let L0 := (layers1.get? 0).getD dummyLayer
  let layers2 :=
    if L0.Theta.rows ≠ nFeatures + 1 then
      NewLayer (1 + nFeatures) L0.Theta.cols L0.Activation regr.Optimizer
        (rng (hidden.length + 1)) :: layers1.tail
    else layers1
  -- adjust size of output layer to Y outputs (lines 140–144)
  let Llast := (layers2.get? (layers2.length - 1)).getD dummyLayer
  let layers3 :=
    if nOutputs ≠ Llast.Theta.cols then
      layers2.dropLast ++
        [NewLayer Llast.Theta.rows nOutputs ((layers2.get? 0).getD dummyLayer).Activation
          regr.Optimizer (rng (hidden.length + 2))]
    else layers2
  let lossF := lossFns regr.Loss
  let epochs : Int := if regr.Epochs ≤ 0 then 100 else regr.Epochs
  let st := fitEpochs lossF Fimpl shuffles regr.Alpha regr.L1Ratio nSamples
    ⟨X, Y, layers3, regr.J, regr.JFirst⟩ 0 epochs.toNat
  ({ regr with Layers := st.layers, Epochs := epochs, J := st.J, JFirst := st.JFirst },
   st.X, st.Y)

/-! ### Helper lemmas about the backward pass -/

@[simp]
theorem layerAt_cons_zero (L : Layer) (ls : List Layer) : layerAt (L :: ls) 0 = L := rfl

@[simp]
theorem layerAt_cons_succ (L : Layer) (ls : List Layer) (i : Nat) :
    layerAt (L :: ls) (i + 1) = layerAt ls i := rfl

@[simp]
theorem layerAt_nil (i : Nat) : layerAt [] i = dummyLayer := by
  cases i <;> rfl

theorem backwardLayers_length (lossF : LossT) (a l1 : ℚ) (n : Nat) (Y : Mat) :
    ∀ (ls : List Layer) (Xl : Mat),
      (backwardLayers lossF a l1 n Y Xl ls).1.length = ls.length := by
  intro ls
  induction ls with
  | nil => intro Xl; rfl
  | cons L rest ih =>
    intro Xl
    cases rest with
    | nil => rfl
    | cons next rest' =>
      simp only [backwardLayers, List.length_cons]
      rw [ih]
      simp

theorem backwardLayers_Ypred (lossF : LossT) (a l1 : ℚ) (n : Nat) (Y : Mat) :
    ∀ (ls : List Layer) (Xl : Mat) (i : Nat),
      (layerAt (backwardLayers lossF a l1 n Y Xl ls).1 i).Ypred = (layerAt ls i).Ypred ∧
      (layerAt (backwardLayers lossF a l1 n Y Xl ls).1 i).Activation = (layerAt ls i).Activation := by
  intro ls
  induction ls with
  | nil => intro Xl i; exact ⟨rfl, rfl⟩
  | cons L rest ih =>
    intro Xl i
    cases rest with
    | nil =>
      cases i with
      | zero => exact ⟨rfl, rfl⟩
      | succ j => simp [backwardLayers, layerAt_nil]
    | cons next rest' =>
      cases i with
      | zero => exact ⟨rfl, rfl⟩
      | succ j =>
        simpa only [backwardLayers, layerAt_cons_succ] using
          ih (L.Ypred.getD emptyMat) j

theorem backwardLayers_Theta (lossF : LossT) (a l1 : ℚ) (n : Nat) (Y : Mat) :
    ∀ (ls : List Layer) (Xl : Mat) (i : Nat), i < ls.length →
      (layerAt (backwardLayers lossF a l1 n Y Xl ls).1 i).Update.isSome = true ∧
      (layerAt (backwardLayers lossF a l1 n Y Xl ls).1 i).Theta =
        matAdd (layerAt ls i).Theta
          ((layerAt (backwardLayers lossF a l1 n Y Xl ls).1 i).Update.getD emptyMat) := by
  intro ls
  induction ls with
  | nil => intro Xl i h; exact absurd h (by simp)
  | cons L rest ih =>
    intro Xl i h
    cases rest with
    | nil =>
      cases i with
      | zero => exact ⟨rfl, rfl⟩
      | succ j =>
        exact absurd h (by simp)
    | cons next rest' =>
      cases i with
      | zero => exact ⟨rfl, rfl⟩
      | succ j =>
        have hj : j < (next :: rest').length := by
          simpa using Nat.lt_of_succ_lt_succ h
        simpa only [backwardLayers, layerAt_cons_succ] using
          ih (L.Ypred.getD emptyMat) j hj

theorem backwardLayers_output (lossF : LossT) (a l1 : ℚ) (n : Nat) (Y : Mat) :
    ∀ (ls : List Layer) (Xl : Mat), ls ≠ [] →
      (layerAt (backwardLayers lossF a l1 n Y Xl ls).1 (ls.length - 1)).Ytrue = some Y ∧
      (layerAt (backwardLayers lossF a l1 n Y Xl ls).1 (ls.length - 1)).Ydiff =
        some (matSub ((layerAt ls (ls.length - 1)).Ypred.getD emptyMat) Y) := by
  intro ls
  induction ls with
  | nil => intro Xl h; exact absurd rfl h
  | cons L rest ih =>
    intro Xl _
    cases rest with
    | nil => exact ⟨rfl, rfl⟩
    | cons next rest' =>
      have := ih (L.Ypred.getD emptyMat) (by simp)
      simpa only [backwardLayers, List.length_cons, Nat.add_sub_cancel,
        layerAt_cons_succ] using this

theorem backwardLayers_interior (lossF : LossT) (a l1 : ℚ) (n : Nat) (Y : Mat) :
    ∀ (ls : List Layer) (Xl : Mat) (i : Nat), i + 1 < ls.length →
      (layerAt (backwardLayers lossF a l1 n Y Xl ls).1 i).Ydiff =
        some (matMulElem
          (matMul ((layerAt (backwardLayers lossF a l1 n Y Xl ls).1 (i + 1)).Ydiff.getD emptyMat)
            (firstColumnRemoved (transposeM
              (layerAt (backwardLayers lossF a l1 n Y Xl ls).1 (i + 1)).Theta)))
          (matApply (layerAt ls i).Activation.Fprime ((layerAt ls i).Ypred.getD emptyMat))) ∧
      (layerAt (backwardLayers lossF a l1 n Y Xl ls).1 i).Ytrue =
        some (matSub ((layerAt ls i).Ypred.getD emptyMat)
          ((layerAt (backwardLayers lossF a l1 n Y Xl ls).1 i).Ydiff.getD emptyMat)) := by
  intro ls
  induction ls with
  | nil => intro Xl i h; exact absurd h (by simp)
  | cons L rest ih =>
    intro Xl i h
    cases rest with
    | nil =>
      exact absurd h (by simp)
    | cons next rest' =>
      cases i with
      | zero => exact ⟨rfl, rfl⟩
      | succ j =>
        have hj : j + 1 < (next :: rest').length := by
          simpa using Nat.lt_of_succ_lt_succ h
        simpa only [backwardLayers, layerAt_cons_succ] using
          ih (L.Ypred.getD emptyMat) j hj

/-! ### Dimension lemmas for the matrix operations -/

@[simp] theorem matMul_rows (A B : Mat) : (matMul A B).rows = A.rows := rfl

@[simp] theorem matMul_cols (A B : Mat) : (matMul A B).cols = B.cols := rfl

@[simp] theorem matSub_rows (A B : Mat) : (matSub A B).rows = A.rows := rfl

@[simp] theorem matSub_cols (A B : Mat) : (matSub A B).cols = A.cols := rfl

@[simp] theorem matAdd_rows (A B : Mat) : (matAdd A B).rows = A.rows := rfl

@[simp] theorem matAdd_cols (A B : Mat) : (matAdd A B).cols = A.cols := rfl

@[simp] theorem matMulElem_rows (A B : Mat) : (matMulElem A B).rows = A.rows := rfl

@[simp] theorem matMulElem_cols (A B : Mat) : (matMulElem A B).cols = A.cols := rfl

@[simp] theorem matApply_rows (f : ℚ → ℚ) (A : Mat) : (matApply f A).rows = A.rows := rfl

@[simp] theorem matApply_cols (f : ℚ → ℚ) (A : Mat) : (matApply f A).cols = A.cols := rfl

@[simp] theorem onesAdded_rows (A : Mat) : (onesAdded A).rows = A.rows := rfl

@[simp] theorem onesAdded_cols (A : Mat) : (onesAdded A).cols = A.cols + 1 := rfl

@[simp] theorem transposeM_rows (A : Mat) : (transposeM A).rows = A.cols := rfl

@[simp] theorem transposeM_cols (A : Mat) : (transposeM A).cols = A.rows := rfl

@[simp] theorem firstColumnRemoved_rows (A : Mat) : (firstColumnRemoved A).rows = A.rows := rfl

@[simp] theorem firstColumnRemoved_cols (A : Mat) : (firstColumnRemoved A).cols = A.cols - 1 := rfl

@[simp] theorem permRows_rows (p : Nat → Nat) (A : Mat) : (permRows p A).rows = A.rows := rfl

@[simp] theorem permRows_cols (p : Nat → Nat) (A : Mat) : (permRows p A).cols = A.cols := rfl

@[simp] theorem zeroMat_rows (r c : Nat) : (zeroMat r c).rows = r := rfl

@[simp] theorem zeroMat_cols (r c : Nat) : (zeroMat r c).cols = c := rfl

/-! ### Forward-pass lemmas -/

theorem forwardLayers_idem (Fimpl : ActivationF) :
    ∀ (ls : List Layer) (X : Mat),
      forwardLayers Fimpl X (forwardLayers Fimpl X ls) = forwardLayers Fimpl X ls := by
  intro ls
  induction ls with
  | nil => intro X; rfl
  | cons L rest ih =>
    intro X
    simp only [forwardLayers, Option.isNone_some, Bool.false_eq_true, if_false]
    rw [ih]

/-! ### The per-layer shape invariant (claim C9's vocabulary)

For an `Option Mat` buffer the shape requirement is conditional on the buffer
being allocated; `orowsD`/`ocolsD` read the dimension of an allocated buffer
and fall back to the required value when the buffer is still nil, so the
equations below say exactly "if allocated, the shape is right". -/

def orowsD (d : Nat) (o : Option Mat) : Nat := (o.map Mat.rows).getD d

def ocolsD (d : Nat) (o : Option Mat) : Nat := (o.map Mat.cols).getD d

/-- The shape invariant of a single layer with `inputs` inputs and batch size
`batch`: the weight matrix has `1 + inputs` rows (bias row included);
`predictions`, `targets` and `diff` have shape (batch, outputs); `gradient`
and `update` have shape (1+inputs, outputs), where outputs is `Theta`'s
column count. -/
def LayerShapeOK (inputs batch : Nat) (L : Layer) : Prop :=
  L.Theta.rows = 1 + inputs ∧
  orowsD batch L.Ypred = batch ∧ ocolsD L.Theta.cols L.Ypred = L.Theta.cols ∧
  orowsD batch L.Ytrue = batch ∧ ocolsD L.Theta.cols L.Ytrue = L.Theta.cols ∧
  orowsD batch L.Ydiff = batch ∧ ocolsD L.Theta.cols L.Ydiff = L.Theta.cols ∧
  orowsD (1 + inputs) L.Grad = 1 + inputs ∧ ocolsD L.Theta.cols L.Grad = L.Theta.cols ∧
  orowsD (1 + inputs) L.Update = 1 + inputs ∧ ocolsD L.Theta.cols L.Update = L.Theta.cols

/-- The shape invariant over a whole layer stack: layer 0 takes `inA` inputs
and each later layer takes the previous layer's output width as input. -/
def ChainShapeOK (batch : Nat) : Nat → List Layer → Prop
  | _, [] => True
  | inA, L :: rest => LayerShapeOK inA batch L ∧ ChainShapeOK batch L.Theta.cols rest

/-- The output width of a layer stack fed with `inA` inputs. -/
def chainOut (inA : Nat) : List Layer → Nat
  | [] => inA
  | L :: rest => chainOut L.Theta.cols rest

/-- All prediction buffers are allocated (true after any forward pass). -/
def PredsAllocated (ls : List Layer) : Prop := ∀ L ∈ ls, L.Ypred.isSome = true

/-- A loss plug-in is shape-correct when the gradient it fills has the shape
of the weight matrix, as the spec's contract requires ("fills gradient-out",
whose buffer has the weight shape). -/
def LossShapeOK (f : LossT) : Prop :=
  ∀ yt x1 th yp yd a l1 n act,
    ((f yt x1 th yp yd a l1 n act).2).rows = th.rows ∧
    ((f yt x1 th yp yd a l1 n act).2).cols = th.cols

/-- An optimizer is shape-correct when the update it writes has the gradient's
shape, as the spec's contract requires. -/
def OptShapeOK (o : Optimizer) : Prop :=
  ∀ s g, ((o.rule s g).1).rows = g.rows ∧ ((o.rule s g).1).cols = g.cols

/-- All layers of a stack carry shape-correct optimizers. -/
def OptsShapeOK (ls : List Layer) : Prop := ∀ L ∈ ls, OptShapeOK L.Optimizer

theorem NewLayer_shape (inputs outputs : Nat) (act : Activation) (opt : Optimizer)
    (rng : Nat → Nat → ℚ) (batch : Nat) :
    LayerShapeOK inputs batch (NewLayer (1 + inputs) outputs act opt rng) := by
  refine ⟨rfl, ?_, ?_, ?_, ?_, ?_, ?_, ?_, ?_, ?_, ?_⟩ <;> rfl

theorem LayerInit_shape (L : Layer) (inputs samples : Nat)
    (h : L.Theta.rows = 1 + inputs) :
    LayerShapeOK inputs samples (L.Init samples inputs) := by
  refine ⟨h, ?_, ?_, ?_, ?_, ?_, ?_, ?_, ?_, ?_, ?_⟩ <;> rfl

theorem forwardLayers_shape (Fimpl : ActivationF) :
    ∀ (ls : List Layer) (X : Mat) (inA batch : Nat),
      ChainShapeOK batch inA ls → X.rows = batch → X.cols = inA →
      ChainShapeOK batch inA (forwardLayers Fimpl X ls) ∧
        PredsAllocated (forwardLayers Fimpl X ls) := by
  intro ls
  induction ls with
  | nil =>
    intro X inA batch _ _ _
    exact ⟨trivial, by intro L hL; cases hL⟩
  | cons L rest ih =>
    intro X inA batch hchain hrows hcols
    obtain ⟨hL, hrest⟩ := hchain
    -- the head after the optional Init
    have hL1 : LayerShapeOK inA batch (if L.Ypred.isNone then L.Init X.rows X.cols else L) := by
      by_cases h : L.Ypred.isNone
      · simp only [h, if_true]
        subst hrows hcols
        exact LayerInit_shape L X.cols X.rows hL.1
      · simpa [h] using hL
    have hTheta1 :
        (if L.Ypred.isNone then L.Init X.rows X.cols else L).Theta = L.Theta := by
      by_cases h : L.Ypred.isNone <;> simp [h, Layer.Init]
    constructor
    · constructor
      · -- head layer of the forward result
        refine ⟨?_, ?_, ?_, ?_, ?_, ?_, ?_, ?_, ?_, ?_, ?_⟩
        · simpa [hTheta1] using hL1.1
        · simp [orowsD, hrows, hTheta1]
        · simp [ocolsD, hTheta1]
        · simpa [hTheta1] using hL1.2.2.2.1
        · simpa [hTheta1] using hL1.2.2.2.2.1
        · simpa [hTheta1] using hL1.2.2.2.2.2.1
        · simpa [hTheta1] using hL1.2.2.2.2.2.2.1
        · simpa [hTheta1] using hL1.2.2.2.2.2.2.2.1
        · simpa [hTheta1] using hL1.2.2.2.2.2.2.2.2.1
        · simpa [hTheta1] using hL1.2.2.2.2.2.2.2.2.2.1
        · simpa [hTheta1] using hL1.2.2.2.2.2.2.2.2.2.2
      · -- the tail, fed with the freshly written prediction buffer
        have := ih (matApply (Fimpl (if L.Ypred.isNone then L.Init X.rows X.cols else L).Activation)
            (matMul (onesAdded X) (if L.Ypred.isNone then L.Init X.rows X.cols else L).Theta))
          L.Theta.cols batch (by simpa [hTheta1] using hrest) (by simp [hrows]) (by simp [hTheta1])
        simpa [hTheta1] using this.1
    · intro L' hL'
      simp only [forwardLayers, List.mem_cons] at hL'
      rcases hL' with h1 | h2
      · subst h1; rfl
      · have := ih (matApply (Fimpl (if L.Ypred.isNone then L.Init X.rows X.cols else L).Activation)
            (matMul (onesAdded X) (if L.Ypred.isNone then L.Init X.rows X.cols else L).Theta))
          L.Theta.cols batch (by simpa [hTheta1] using hrest) (by simp [hrows]) (by simp [hTheta1])
        exact this.2 L' h2

theorem getD_rows_of_isSome (o : Option Mat) (d : Nat) (h : o.isSome = true) :
    (o.getD emptyMat).rows = orowsD d o := by
  cases o with
  | none => cases h
  | some M => rfl

theorem getD_cols_of_isSome (o : Option Mat) (d : Nat) (h : o.isSome = true) :
    (o.getD emptyMat).cols = ocolsD d o := by
  cases o with
  | none => cases h
  | some M => rfl

theorem backwardLayers_shape (lossF : LossT) (a l1 : ℚ) (n : Nat) (Y : Mat) (batch : Nat) :
    ∀ (ls : List Layer) (Xl : Mat) (inA : Nat),
      ChainShapeOK batch inA ls → PredsAllocated ls → OptsShapeOK ls →
      LossShapeOK lossF → Y.rows = batch → Y.cols = chainOut inA ls →
      ChainShapeOK batch inA (backwardLayers lossF a l1 n Y Xl ls).1 ∧
      (∀ L' ∈ (backwardLayers lossF a l1 n Y Xl ls).1, L'.Ydiff.isSome = true) := by
  intro ls
  induction ls with
  | nil =>
    intro Xl inA _ _ _ _ _ _
    exact ⟨trivial, by intro L hL; cases hL⟩
  | cons L rest ih =>
    intro Xl inA hchain hpred hopt hloss hYr hYc
    obtain ⟨hL, hrest⟩ := hchain
    have hPsome : L.Ypred.isSome = true := hpred L (by simp)
    have hPr : (L.Ypred.getD emptyMat).rows = batch := by
      rw [getD_rows_of_isSome L.Ypred batch hPsome]; exact hL.2.1
    have hPc : (L.Ypred.getD emptyMat).cols = L.Theta.cols := by
      rw [getD_cols_of_isSome L.Ypred L.Theta.cols hPsome]; exact hL.2.2.1
    have hG := hloss
    have hO : OptShapeOK L.Optimizer := hopt L (by simp)
    cases rest with
    | nil =>
      -- output layer
      refine ⟨⟨?_, ?_⟩, ?_⟩
      · have hYc' : Y.cols = L.Theta.cols := hYc
        refine ⟨?_, ?_, ?_, ?_, ?_, ?_, ?_, ?_, ?_, ?_, ?_⟩
        · simpa using hL.1
        · simpa [orowsD] using hL.2.1
        · simpa [ocolsD] using hL.2.2.1
        · simpa [orowsD] using hYr
        · simpa [ocolsD] using hYc'
        · simp [orowsD, hPr]
        · simp [ocolsD, hPc]
        · exact ((hG _ _ _ _ _ _ _ _ _).1).trans hL.1
        · exact (hG _ _ _ _ _ _ _ _ _).2
        · exact ((hO _ _).1).trans (((hG _ _ _ _ _ _ _ _ _).1).trans hL.1)
        · exact ((hO _ _).2).trans ((hG _ _ _ _ _ _ _ _ _).2)
      · trivial
      · intro L' hL'
        simp only [backwardLayers, List.mem_singleton] at hL'
        subst hL'
        rfl
    | cons next rest' =>
      -- interior layer: process the tail first
      have hYc' : Y.cols = chainOut L.Theta.cols (next :: rest') := hYc
      have htail := ih (L.Ypred.getD emptyMat) L.Theta.cols hrest
        (by intro L' h; exact hpred L' (by simp [h]))
        (by intro L' h; exact hopt L' (by simp [h])) hloss hYr hYc'
      have hlen : (backwardLayers lossF a l1 n Y (L.Ypred.getD emptyMat) (next :: rest')).1.length
          = rest'.length + 1 := by
        rw [backwardLayers_length]; rfl
      -- expose the head of the processed tail
      cases htl : (backwardLayers lossF a l1 n Y (L.Ypred.getD emptyMat) (next :: rest')).1 with
      | nil => rw [htl] at hlen; cases hlen
      | cons hd tl =>
        rw [htl] at htail
        obtain ⟨⟨hhd, htl2⟩, hdiffs⟩ := htail
        have hdiffsome : hd.Ydiff.isSome = true := hdiffs hd (by simp)
        have hdYr : (hd.Ydiff.getD emptyMat).rows = batch := by
          rw [getD_rows_of_isSome hd.Ydiff batch hdiffsome]; exact hhd.2.2.2.2.2.1
        have hdYc : (hd.Ydiff.getD emptyMat).cols = hd.Theta.cols := by
          rw [getD_cols_of_isSome hd.Ydiff hd.Theta.cols hdiffsome]; exact hhd.2.2.2.2.2.2.1
        have hdTr : hd.Theta.rows = 1 + L.Theta.cols := hhd.1
        -- dimensions of the freshly computed diff of the interior layer
        have hDiffr :
            (matMulElem
              (matMul (hd.Ydiff.getD emptyMat) (firstColumnRemoved (transposeM hd.Theta)))
              (matApply L.Activation.Fprime (L.Ypred.getD emptyMat))).rows = batch := by
          simp [hdYr]
        have hDiffc :
            (matMulElem
              (matMul (hd.Ydiff.getD emptyMat) (firstColumnRemoved (transposeM hd.Theta)))
              (matApply L.Activation.Fprime (L.Ypred.getD emptyMat))).cols = L.Theta.cols := by
          simp [hdTr]
        refine ⟨⟨?_, ?_⟩, ?_⟩
        · refine ⟨?_, ?_, ?_, ?_, ?_, ?_, ?_, ?_, ?_, ?_, ?_⟩
          · simpa using hL.1
          · simpa [orowsD] using hL.2.1
          · simpa [ocolsD] using hL.2.2.1
          · simp only [backwardLayers, htl, orowsD, ocolsD, Option.map_some, Option.getD_some,
              matSub_rows]
            exact hPr
          · simp only [backwardLayers, htl, ocolsD, Option.map_some, Option.getD_some,
              matSub_cols, matAdd_cols]
            exact hPc
          · simp only [backwardLayers, htl, orowsD, Option.map_some, Option.getD_some,
              List.get?_cons_zero, Option.getD_some]
            exact hDiffr
          · simp only [backwardLayers, htl, ocolsD, Option.map_some, Option.getD_some,
              matAdd_cols, List.get?_cons_zero]
            exact hDiffc
          · exact ((hG _ _ _ _ _ _ _ _ _).1).trans hL.1
          · exact (hG _ _ _ _ _ _ _ _ _).2
          · exact ((hO _ _).1).trans (((hG _ _ _ _ _ _ _ _ _).1).trans hL.1)
          · exact ((hO _ _).2).trans ((hG _ _ _ _ _ _ _ _ _).2)
        · simp only [backwardLayers, htl, matAdd_cols]
          exact ⟨hhd, htl2⟩
        · intro L' hL'
          simp only [backwardLayers, htl, List.mem_cons] at hL'
          rcases hL' with h1 | h2
          · subst h1; rfl
          · exact hdiffs L' (by simpa using h2)

/-! ### Epoch-loop lemmas -/

/-- The composition of the per-epoch row permutations over `count` epochs
starting at epoch `start`, applied to a matrix.  This is the cumulative
effect of the in-place `DenseShuffle` calls of the epoch loop. -/
def applyPerms (shuffles : Nat → Nat → Nat) (start : Nat) (M : Mat) : Nat → Mat
  | 0 => M
  | c + 1 => applyPerms shuffles (start + 1) (permRows (shuffles start) M) c

theorem fitEpochs_X (lossF : LossT) (Fimpl : ActivationF) (shuffles : Nat → Nat → Nat)
    (a l1 : ℚ) (n : Nat) :
    ∀ (c : Nat) (st : FitState) (e : Nat),
      (fitEpochs lossF Fimpl shuffles a l1 n st e c).X = applyPerms shuffles e st.X c ∧
      (fitEpochs lossF Fimpl shuffles a l1 n st e c).Y = applyPerms shuffles e st.Y c := by
  intro c
  induction c with
  | zero => intro st e; exact ⟨rfl, rfl⟩
  | succ c ih =>
    intro st e
    simpa only [fitEpochs, applyPerms] using
      ih (epochStep lossF Fimpl shuffles a l1 n e st) (e + 1)

theorem fitEpochs_JFirst_frozen (lossF : LossT) (Fimpl : ActivationF)
    (shuffles : Nat → Nat → Nat) (a l1 : ℚ) (n : Nat) :
    ∀ (c : Nat) (st : FitState) (e : Nat), 2 ≤ e →
      (fitEpochs lossF Fimpl shuffles a l1 n st e c).JFirst = st.JFirst := by
  intro c
  induction c with
  | zero => intro st e _; rfl
  | succ c ih =>
    intro st e he
    have h1 : e ≠ 1 := by omega
    have := ih (epochStep lossF Fimpl shuffles a l1 n e st) (e + 1) (by omega)
    rw [fitEpochs, this]
    simp [epochStep, h1]

theorem fitEpochs_split (lossF : LossT) (Fimpl : ActivationF) (shuffles : Nat → Nat → Nat)
    (a l1 : ℚ) (n : Nat) :
    ∀ (c1 c2 : Nat) (st : FitState) (e : Nat),
      fitEpochs lossF Fimpl shuffles a l1 n st e (c1 + c2) =
        fitEpochs lossF Fimpl shuffles a l1 n
          (fitEpochs lossF Fimpl shuffles a l1 n st e c1) (e + c1) c2 := by
  intro c1
  induction c1 with
  | zero => intro c2 st e; simp [fitEpochs]
  | succ c1 ih =>
    intro c2 st e
    have : c1 + 1 + c2 = (c1 + c2) + 1 := by omega
    rw [this, fitEpochs, fitEpochs, ih]
    have : e + 1 + c1 = e + (c1 + 1) := by omega
    rw [this]

theorem fitEpochs_two_JFirst_eq_J (lossF : LossT) (Fimpl : ActivationF)
    (shuffles : Nat → Nat → Nat) (a l1 : ℚ) (n : Nat) (st : FitState) :
    (fitEpochs lossF Fimpl shuffles a l1 n st 0 2).JFirst =
      (fitEpochs lossF Fimpl shuffles a l1 n st 0 2).J := by
  simp [fitEpochs, epochStep]

/-! ### Lemmas about the non-finite guard -/

/-- Whether a guarded computation aborted (the Go panic propagated). -/
def panicked {α : Type} : Except String α → Bool
  | .error _ => true
  | .ok _ => false

theorem panicked_bind_pure {α β : Type} (m : Except String α) (f : α → β) :
    panicked (m >>= fun x => pure (f x)) = panicked m := by
  cases m <;> rfl

theorem panicked_row (row : List GoF) :
    panicked (row.mapM panicIfNaN) = row.any GoF.IsNaN := by
  induction row with
  | nil => rfl
  | cons v row ih =>
    rw [List.mapM_cons]
    cases hv : v.IsNaN
    · have hok : panicIfNaN v = .ok v := by simp [panicIfNaN, hv]
      rw [hok]
      show panicked ((pure v : Except String GoF) >>= _) = _
      rw [pure_bind]
      show panicked (row.mapM panicIfNaN >>= fun xs => pure (v :: xs)) = _
      rw [panicked_bind_pure, ih]
      simp [hv]
    · have herr : panicIfNaN v = .error "NaN" := by simp [panicIfNaN, hv]
      rw [herr]
      simp [hv, panicked]
      rfl

/-! ### Concrete fixtures for witnesses and counterexamples

Concrete plug-in instances (legitimate inhabitants of the optimizer/loss
contracts) and tiny concrete matrices, layers and configurations used to
evaluate the model on explicit inputs. -/

/-- A concrete optimizer whose update equals the gradient (stateless). -/
def optIdGrad : Optimizer := ⟨[], fun s g => (g, s)⟩

/-- A concrete optimizer whose update is the zero matrix (stateless). -/
def optZero : Optimizer := ⟨[], fun s g => (zeroMat g.rows g.cols, s)⟩

/-- A concrete loss plug-in: loss 0, gradient equal to the weight matrix. -/
def lossTheta : LossT := fun _ _ th _ _ _ _ _ _ => (0, th)

/-- A concrete loss plug-in: loss is the squared (0,0) entry of the diff,
gradient equal to the weight matrix. -/
def lossDiff00 : LossT := fun _ _ th _ yd _ _ _ _ => (yd.data 0 0 * yd.data 0 0, th)

/-- A loss registry binding every name to `lossDiff00`. -/
def cLossFns : String → LossT := fun _ => lossDiff00

/-- A loss registry binding every name to `lossTheta`. -/
def cLossFnsTheta : String → LossT := fun _ => lossTheta

/-- A concrete forward-map interpretation (identity on every activation). -/
def FimplId : ActivationF := fun _ x => x

/-- The identity per-epoch shuffle permutation. -/
def shufflesId : Nat → Nat → Nat := fun _ i => i

/-- A per-epoch shuffle permutation swapping rows 0 and 1 in every epoch. -/
def shuffleSwap2 : Nat → Nat → Nat :=
  fun _ i => if i = 0 then 1 else if i = 1 then 0 else i

/-- A zero random stream: every `NewLayer` weight draw is 0. -/
def rng0 : Nat → Nat → Nat → ℚ := fun _ _ _ => 0

/-- A concrete 1×1 matrix. -/
def m11 (q : ℚ) : Mat := ⟨1, 1, fun _ _ => q⟩

/-- A concrete 2×1 column matrix. -/
def m21 (q r : ℚ) : Mat := ⟨2, 1, fun i _ => if i = 0 then q else r⟩

/-- A solver registry binding every name to `optZero`. -/
def solvers0 : String → OptimCreator := fun _ => optZero

/-- A concrete interior layer: identity activation, zero 2×1 weights, and a
1×1 prediction buffer holding 0. -/
def wLayer0 : Layer :=
  { Activation := .identity, Theta := m21 0 0, Ypred := some (m11 0), Optimizer := optIdGrad }

/-- A concrete output layer: identity activation, all-ones 2×1 weights, and a
1×1 prediction buffer holding 1. -/
def wLayer1 : Layer :=
  { Activation := .identity, Theta := m21 1 1, Ypred := some (m11 1), Optimizer := optIdGrad }

/-- A concrete regressor configuration: one output layer, identity
activation, one epoch, square loss. -/
def cRegr7 : MLPRegressor :=
  { Optimizer := optIdGrad, Activation := .identity, HiddenLayerSizes := [],
    Epochs := 1, Loss := "square" }

/-- The same configuration with two epochs. -/
def cRegr7b : MLPRegressor :=
  { Optimizer := optIdGrad, Activation := .identity, HiddenLayerSizes := [],
    Epochs := 2, Loss := "square" }

/-- A default-flag configuration used for the shuffle counterexample: every
field a Go caller could leave unset is at its zero value except the epoch
count and the mandatory plug-ins. -/
def cRegr5 : MLPRegressor :=
  { Optimizer := optZero, Activation := .identity, HiddenLayerSizes := [],
    Epochs := 1, Loss := "square" }

/-- A regressor carrying a previously trained layer (weights 42) to feed a
second `Fit` call. -/
def cRegr6 : MLPRegressor :=
  { Optimizer := optZero, Activation := .identity, HiddenLayerSizes := [],
    Epochs := 1, Loss := "square",
    Layers := [{ Activation := .identity, Theta := m21 42 42, Optimizer := optZero }] }

/-- A classifier built by `NewMLPClassifier` with relu interior activation,
with the epoch count set to 1 by its caller. -/
def cRegr4 : MLPRegressor :=
  { NewMLPClassifier solvers0 [] "relu" "adam" 0 with Epochs := 1 }

/-- Corollary form of `fitEpochs_X` for rewriting: the data matrix after the
epoch loop is the composition of the per-epoch shuffles. -/
theorem fitEpochs_X1 (lossF : LossT) (Fimpl : ActivationF) (shuffles : Nat → Nat → Nat)
    (a l1 : ℚ) (n : Nat) (c : Nat) (st : FitState) (e : Nat) :
    (fitEpochs lossF Fimpl shuffles a l1 n st e c).X = applyPerms shuffles e st.X c :=
  (fitEpochs_X lossF Fimpl shuffles a l1 n c st e).1

/-- Corollary form of `fitEpochs_X` for the target matrix. -/
theorem fitEpochs_Y1 (lossF : LossT) (Fimpl : ActivationF) (shuffles : Nat → Nat → Nat)
    (a l1 : ℚ) (n : Nat) (c : Nat) (st : FitState) (e : Nat) :
    (fitEpochs lossF Fimpl shuffles a l1 n st e c).Y = applyPerms shuffles e st.Y c :=
  (fitEpochs_X lossF Fimpl shuffles a l1 n c st e).2

/-! ### The claims -/

/-- C1: During the backward pass of each epoch, for every layer processed in
reverse order: the output layer's targets buffer is set to a copy of `Y` and
its diff buffer to predictions − Y; an interior layer `l`'s diff is set to
(diff of layer l+1 × bias-trimmed transpose of layer l+1's weights),
elementwise-multiplied by `Fprime` of layer l's predictions, and its targets
to predictions − diff.  Stated over the result of `backwardLayers` (the body
of the epoch loop's layer recursion): the buffers of the processed layer list
satisfy exactly these equations, where layer l+1's weights are read as the
backward pass left them. -/
theorem C1_backward_formulas (lossF : LossT) (alpha l1Ratio : ℚ) (nSamples : Nat)
    (Y Xl : Mat) (ls : List Layer) :
    (ls ≠ [] →
      (layerAt (backwardLayers lossF alpha l1Ratio nSamples Y Xl ls).1 (ls.length - 1)).Ytrue
          = some Y ∧
      (layerAt (backwardLayers lossF alpha l1Ratio nSamples Y Xl ls).1 (ls.length - 1)).Ydiff
          = some (matSub ((layerAt ls (ls.length - 1)).Ypred.getD emptyMat) Y)) ∧
    (∀ i, i + 1 < ls.length →
      (layerAt (backwardLayers lossF alpha l1Ratio nSamples Y Xl ls).1 i).Ydiff =
        some (matMulElem
          (matMul
            ((layerAt (backwardLayers lossF alpha l1Ratio nSamples Y Xl ls).1 (i + 1)).Ydiff.getD
              emptyMat)
            (firstColumnRemoved (transposeM
              (layerAt (backwardLayers lossF alpha l1Ratio nSamples Y Xl ls).1 (i + 1)).Theta)))
          (matApply (layerAt ls i).Activation.Fprime ((layerAt ls i).Ypred.getD emptyMat))) ∧
      (layerAt (backwardLayers lossF alpha l1Ratio nSamples Y Xl ls).1 i).Ytrue =
        some (matSub ((layerAt ls i).Ypred.getD emptyMat)
          ((layerAt (backwardLayers lossF alpha l1Ratio nSamples Y Xl ls).1 i).Ydiff.getD
            emptyMat))) :=
  ⟨fun h => backwardLayers_output lossF alpha l1Ratio nSamples Y ls Xl h,
   fun i h => backwardLayers_interior lossF alpha l1Ratio nSamples Y ls Xl i h⟩

/-- Witness for C1: the theorem applied to a concrete two-layer network. -/
theorem C1_backward_formulas_witness :
    ([wLayer0, wLayer1] : List Layer) ≠ [] ∧ 0 + 1 < ([wLayer0, wLayer1] : List Layer).length ∧
    (layerAt (backwardLayers lossTheta 0 0 1 (m11 0) (m11 1) [wLayer0, wLayer1]).1 1).Ytrue
        = some (m11 0) ∧
    (layerAt (backwardLayers lossTheta 0 0 1 (m11 0) (m11 1) [wLayer0, wLayer1]).1 0).Ytrue =
      some (matSub ((layerAt [wLayer0, wLayer1] 0).Ypred.getD emptyMat)
        ((layerAt (backwardLayers lossTheta 0 0 1 (m11 0) (m11 1) [wLayer0, wLayer1]).1 0).Ydiff.getD
          emptyMat)) :=
  ⟨by simp, by simp,
   ((C1_backward_formulas lossTheta 0 0 1 (m11 0) (m11 1) [wLayer0, wLayer1]).1 (by simp)).1,
   ((C1_backward_formulas lossTheta 0 0 1 (m11 0) (m11 1) [wLayer0, wLayer1]).2 0 (by simp)).2⟩

/-- Counterexample to C2 as stated: a `+Inf` prediction element — a non-finite
value — passes the live guard of `Predict` untouched instead of aborting. -/
theorem C2_counterexample :
    GoF.nonFinite GoF.posInf = true ∧
    applyPanicIfNaN [[GoF.posInf]] = Except.ok [[GoF.posInf]] :=
  ⟨rfl, rfl⟩

/-- C2 (amended): the only live non-finite check is `panicIfNaN` applied to
the prediction buffers written during the forward pass (`Predict`), and it
aborts exactly when some element is a `NaN`; `±Inf` values pass through
undetected, and the corresponding checks in the backward pass are disabled
(commented out) in the source. -/
theorem C2_guard_aborts_iff_nan (M : List (List GoF)) :
    panicked (applyPanicIfNaN M) = M.any (fun row => row.any GoF.IsNaN) := by
  induction M with
  | nil => rfl
  | cons row M ih =>
    show panicked ((row :: M).mapM (fun row => row.mapM panicIfNaN)) = _
    rw [List.mapM_cons]
    cases hr : row.mapM panicIfNaN with
    | error e =>
      have hrow : row.any GoF.IsNaN = true := by
        rw [← panicked_row, hr]; rfl
      simp only [hr, List.any_cons, hrow, Bool.true_or]
      rfl
    | ok xs =>
      have hrow : row.any GoF.IsNaN = false := by
        rw [← panicked_row, hr]; rfl
      show panicked ((pure xs : Except String (List GoF)) >>= _) = _
      rw [pure_bind]
      show panicked (M.mapM (fun row => row.mapM panicIfNaN) >>= fun xss => pure (xs :: xss)) = _
      rw [panicked_bind_pure]
      show panicked (applyPanicIfNaN M) = _
      rw [ih]
      simp [hrow]

/-- C8: calling `Predict` twice with the same input and unchanged weights
yields identical outputs (and identical final state): prediction alone
mutates no state that affects the result. -/
theorem C8_predict_idempotent (Fimpl : ActivationF) (regr : MLPRegressor) (X : Mat) :
    MLPRegressor.Predict Fimpl (MLPRegressor.Predict Fimpl regr X).1 X =
      MLPRegressor.Predict Fimpl regr X := by
  simp only [MLPRegressor.Predict, forwardLayers_idem]

/-- C10: `Score` ignores its arguments and returns exactly 0 — it is a stub
despite being documented as returning accuracy. -/
theorem C10_score_stub (regr : MLPRegressor) (X Y : Mat) :
    MLPRegressor.Score regr X Y = 0 := rfl

/-- Counterexample to C3 as stated: in a concrete two-layer network the code's
backward pass (`backwardLayers`, mirroring the source's top-down loop that
adds each layer's update to its weights before the loop descends) computes
the interior layer's diff from the *post-update* weights of the next layer,
and the value differs from the one the pre-update weights
(`backwardLayersPre`, the claim's reading) would give: 2 versus 1 at
entry (0,0). -/
theorem C3_counterexample :
    (((layerAt (backwardLayers lossTheta 0 0 1 (m11 0) (m11 1) [wLayer0, wLayer1]).1 0).Ydiff.getD
      emptyMat).data 0 0 = (2 : ℚ)) ∧
    (((layerAt (backwardLayersPre lossTheta 0 0 1 (m11 0) (m11 1) [wLayer0, wLayer1]).1 0).Ydiff.getD
      emptyMat).data 0 0 = (1 : ℚ)) ∧ (2 : ℚ) ≠ (1 : ℚ) := by
  refine ⟨?_, ?_, by norm_num⟩ <;>
    norm_num [backwardLayers, backwardLayersPre, layerAt, wLayer0, wLayer1, lossTheta, optIdGrad,
      Optimizer.GetUpdate, matMul, matMulElem, matApply, matSub, matAdd, transposeM,
      firstColumnRemoved, onesAdded, m11, m21, emptyMat, Activation.Fprime, List.range_succ]

/-- C3 (amended): for every epoch and every interior layer `l`, the backward
step of layer `l` reads layer `l+1`'s weights *after* they were mutated by
layer `l+1`'s update for that epoch: layer `l+1`'s final weights equal its
incoming weights plus its recorded update, and `diff_l` is computed from
exactly those post-update weights. -/
theorem C3_interior_reads_postupdate_weights (lossF : LossT) (alpha l1Ratio : ℚ)
    (nSamples : Nat) (Y Xl : Mat) (ls : List Layer) :
    ∀ i, i + 1 < ls.length →
      (layerAt (backwardLayers lossF alpha l1Ratio nSamples Y Xl ls).1 (i + 1)).Theta =
        matAdd (layerAt ls (i + 1)).Theta
          ((layerAt (backwardLayers lossF alpha l1Ratio nSamples Y Xl ls).1 (i + 1)).Update.getD
            emptyMat) ∧
      (layerAt (backwardLayers lossF alpha l1Ratio nSamples Y Xl ls).1 i).Ydiff =
        some (matMulElem
          (matMul
            ((layerAt (backwardLayers lossF alpha l1Ratio nSamples Y Xl ls).1 (i + 1)).Ydiff.getD
              emptyMat)
            (firstColumnRemoved (transposeM
              (matAdd (layerAt ls (i + 1)).Theta
                ((layerAt (backwardLayers lossF alpha l1Ratio nSamples Y Xl ls).1 (i + 1)).Update.getD
                  emptyMat)))))
          (matApply (layerAt ls i).Activation.Fprime ((layerAt ls i).Ypred.getD emptyMat))) := by
  intro i h
  have hT := (backwardLayers_Theta lossF alpha l1Ratio nSamples Y ls Xl (i + 1) h).2
  have hI := (backwardLayers_interior lossF alpha l1Ratio nSamples Y ls Xl i h).1
  refine ⟨hT, ?_⟩
  rw [← hT]
  exact hI

/-- Witness for the amended C3: the theorem applied to the same concrete
two-layer network, with its index-bound hypothesis discharged. -/
theorem C3_interior_reads_postupdate_weights_witness :
    0 + 1 < ([wLayer0, wLayer1] : List Layer).length ∧
    (layerAt (backwardLayers lossTheta 0 0 1 (m11 0) (m11 1) [wLayer0, wLayer1]).1 (0 + 1)).Theta =
      matAdd (layerAt [wLayer0, wLayer1] (0 + 1)).Theta
        ((layerAt (backwardLayers lossTheta 0 0 1 (m11 0) (m11 1) [wLayer0, wLayer1]).1 (0 + 1)).Update.getD
          emptyMat) :=
  ⟨by simp,
   (C3_interior_reads_postupdate_weights lossTheta 0 0 1 (m11 0) (m11 1) [wLayer0, wLayer1] 0
     (by simp)).1⟩

/-- C4 (evaluation at the failing input): a network built by
`NewMLPClassifier` has `Loss = "log"` but `LossName = ""` — the source's
constructors assign the `Loss` field while `Fit` tests the never-assigned
`LossName` field — so `Fit` gives the output layer the configured interior
activation (here relu), not the logistic activation the spec requires for a
log-loss network. -/
theorem C4_logistic_override_never_fires :
    cRegr4.Loss = "log" ∧ cRegr4.LossName = "" ∧
    (layerAt (MLPRegressor.Fit cLossFns FimplId rng0 shufflesId cRegr4 (m11 1) (m11 1)).1.Layers
      0).Activation = Activation.relu ∧
    Activation.relu ≠ Activation.logistic := by
  refine ⟨rfl, rfl, ?_, by decide⟩
  norm_num [MLPRegressor.Fit, fitEpochs, epochStep, backwardLayers, forwardLayers,
    createHiddenLayers, lastOr, DenseShuffle, permRows, layerAt, NewLayer, Layer.Init,
    cRegr4, NewMLPClassifier, NewMLPRegressor, Activations, solvers0,
    cLossFns, lossDiff00, optZero, Optimizer.GetUpdate, FimplId, shufflesId, rng0,
    matMul, matMulElem, matApply, matSub, matAdd, transposeM, firstColumnRemoved, onesAdded,
    m11, emptyMat, zeroMat, Activation.Fprime, List.range_succ]
  decide

/-- Counterexample to C5 as stated: with every optional configuration field
of the regressor left at its Go zero value — in particular any would-be
"shuffle off" default — one `Fit` epoch still permutes the rows of `X` and
`Y`: the returned (in-place shuffled) matrices hold the swapped rows. -/
theorem C5_counterexample :
    ((MLPRegressor.Fit cLossFns FimplId rng0 shuffleSwap2 cRegr5 (m21 1 2) (m21 3 4)).2.1).data 0 0
        = 2 ∧
    ((MLPRegressor.Fit cLossFns FimplId rng0 shuffleSwap2 cRegr5 (m21 1 2) (m21 3 4)).2.2).data 0 0
        = 4 ∧
    (m21 1 2).data 0 0 = 1 ∧ (m21 3 4).data 0 0 = 3 ∧
    ((2 : ℚ) ≠ 1) ∧ ((4 : ℚ) ≠ 3) := by
  refine ⟨?_, ?_, by norm_num [m21], by norm_num [m21], by norm_num, by norm_num⟩ <;>
    norm_num [MLPRegressor.Fit, fitEpochs, epochStep, backwardLayers, forwardLayers,
      createHiddenLayers, lastOr, DenseShuffle, permRows, layerAt, NewLayer, Layer.Init,
      cRegr5, cLossFns, lossDiff00, optZero, Optimizer.GetUpdate, FimplId, shuffleSwap2, rng0,
      matMul, matMulElem, matApply, matSub, matAdd, transposeM, firstColumnRemoved, onesAdded,
      m21, emptyMat, zeroMat, Activation.Fprime, List.range_succ]

/-- C5 (amended): shuffling is unconditional — there is no shuffle flag on
the configuration struct, and every epoch of every `Fit` run permutes the
rows of `X` and of `Y` in place by that epoch's single row permutation, the
same permutation for both matrices (correlated, as the spec says); the
returned data matrices are the composition of all per-epoch permutations. -/
theorem C5_shuffle_every_epoch (lossFns : String → LossT) (Fimpl : ActivationF)
    (rng : Nat → Nat → Nat → ℚ) (shuffles : Nat → Nat → Nat)
    (regr : MLPRegressor) (X Y : Mat) :
    (MLPRegressor.Fit lossFns Fimpl rng shuffles regr X Y).2.1 =
      applyPerms shuffles 0 X (if regr.Epochs ≤ 0 then (100 : Int) else regr.Epochs).toNat ∧
    (MLPRegressor.Fit lossFns Fimpl rng shuffles regr X Y).2.2 =
      applyPerms shuffles 0 Y (if regr.Epochs ≤ 0 then (100 : Int) else regr.Epochs).toNat := by
  constructor
  · simp only [MLPRegressor.Fit]
    rw [fitEpochs_X1]
  · simp only [MLPRegressor.Fit]
    rw [fitEpochs_Y1]

/-- Counterexample to C6 as stated: a regressor carrying a previously trained
layer (weights 42) is re-`Fit` and the resulting first layer's weights are
the freshly random-initialized ones (0 under the zero random stream), not a
continuation of the existing weights — there is no warm-start path. -/
theorem C6_counterexample :
    ((layerAt (MLPRegressor.Fit cLossFns FimplId rng0 shufflesId cRegr6 (m11 1) (m11 1)).1.Layers
      0).Theta.data 0 0 = 0) ∧
    ((layerAt cRegr6.Layers 0).Theta.data 0 0 = 42) ∧ ((0 : ℚ) ≠ 42) := by
  refine ⟨?_, by norm_num [cRegr6, layerAt, m21], by norm_num⟩
  norm_num [MLPRegressor.Fit, fitEpochs, epochStep, backwardLayers, forwardLayers,
    createHiddenLayers, lastOr, DenseShuffle, permRows, layerAt, NewLayer, Layer.Init,
    cRegr6, cLossFns, lossDiff00, optZero, Optimizer.GetUpdate, FimplId, shufflesId, rng0,
    matMul, matMulElem, matApply, matSub, matAdd, transposeM, firstColumnRemoved, onesAdded,
    m11, emptyMat, zeroMat, Activation.Fprime, List.range_succ]

/-- C6 (amended): every call to `Fit` rebuilds the layer list from scratch
and never reads the regressor's existing `Layers` field — the result of `Fit`
is identical whatever layers (e.g. from a previous fit) the regressor
carries.  There is no warm-start flag in the struct. -/
theorem C6_fit_ignores_existing_layers (lossFns : String → LossT) (Fimpl : ActivationF)
    (rng : Nat → Nat → Nat → ℚ) (shuffles : Nat → Nat → Nat)
    (regr : MLPRegressor) (Ls : List Layer) (X Y : Mat) :
    MLPRegressor.Fit lossFns Fimpl rng shuffles { regr with Layers := Ls } X Y =
      MLPRegressor.Fit lossFns Fimpl rng shuffles regr X Y := rfl

/-- Counterexample to C7 as stated: a one-epoch fit records the (sole, hence
first) epoch's output-layer loss 1 in `J`, but `JFirst` keeps its zero
initial value — the source records `JFirst` at loop counter 1, which a
one-epoch run never reaches, so the very first epoch's loss is *not* what
`JFirst` holds. -/
theorem C7_counterexample :
    (MLPRegressor.Fit cLossFns FimplId rng0 shufflesId cRegr7 (m11 1) (m11 1)).1.J = 1 ∧
    (MLPRegressor.Fit cLossFns FimplId rng0 shufflesId cRegr7 (m11 1) (m11 1)).1.JFirst = 0 ∧
    ((0 : ℚ) ≠ 1) := by
  refine ⟨?_, ?_, by norm_num⟩ <;>
    norm_num [MLPRegressor.Fit, fitEpochs, epochStep, backwardLayers, forwardLayers,
      createHiddenLayers, lastOr, DenseShuffle, permRows, layerAt, NewLayer, Layer.Init,
      cRegr7, cLossFns, lossDiff00, optIdGrad, Optimizer.GetUpdate, FimplId, shufflesId, rng0,
      matMul, matMulElem, matApply, matSub, matAdd, transposeM, firstColumnRemoved, onesAdded,
      m11, emptyMat, zeroMat, Activation.Fprime, List.range_succ]

/-- C7 (amended): `JFirst` records the output-layer loss of the *second*
epoch (loop counter 1): for any fit running at least two epochs, the recorded
`JFirst` equals the `J` of the same fit truncated to exactly two epochs (the
loss of epoch index 1, which also never changes afterwards); `J` itself is
the last epoch's loss.  When only one epoch runs, `JFirst` keeps its initial
value. -/
theorem C7_jfirst_is_second_epoch_loss (lossFns : String → LossT) (Fimpl : ActivationF)
    (rng : Nat → Nat → Nat → ℚ) (shuffles : Nat → Nat → Nat)
    (regr : MLPRegressor) (X Y : Mat) (h : 2 ≤ regr.Epochs) :
    (MLPRegressor.Fit lossFns Fimpl rng shuffles regr X Y).1.JFirst =
      (MLPRegressor.Fit lossFns Fimpl rng shuffles { regr with Epochs := 2 } X Y).1.J := by
  have h0 : ¬(regr.Epochs ≤ 0) := by omega
  have h2 : ¬((2 : Int) ≤ 0) := by norm_num
  simp only [MLPRegressor.Fit, h0, h2, if_false, Int.toNat_ofNat]
  rw [show regr.Epochs.toNat = 2 + (regr.Epochs.toNat - 2) from by omega]
  rw [fitEpochs_split]
  rw [fitEpochs_JFirst_frozen _ _ _ _ _ _ (regr.Epochs.toNat - 2) _ (0 + 2) (by omega)]
  exact fitEpochs_two_JFirst_eq_J _ _ _ _ _ _ _

/-- Witness for the amended C7: the theorem applied to a concrete two-epoch
configuration, its epoch-count hypothesis discharged. -/
theorem C7_jfirst_is_second_epoch_loss_witness :
    (2 : Int) ≤ cRegr7b.Epochs ∧
    (MLPRegressor.Fit cLossFns FimplId rng0 shufflesId cRegr7b (m11 1) (m11 1)).1.JFirst =
      (MLPRegressor.Fit cLossFns FimplId rng0 shufflesId { cRegr7b with Epochs := 2 }
        (m11 1) (m11 1)).1.J :=
  ⟨by decide,
   C7_jfirst_is_second_epoch_loss cLossFns FimplId rng0 shufflesId cRegr7b (m11 1) (m11 1)
     (by decide)⟩

/-- C9: the per-layer shape invariant — weights have 1+inputs rows (bias row
included); allocated predictions/targets/diff buffers have shape
(batch, outputs); allocated gradient/update buffers have shape
(1+inputs, outputs) — holds after layer creation and buffer initialization
and is preserved by the forward pass and by the backward pass (which includes
the weight update), the latter two for whole layer stacks whose optimizer and
loss plug-ins honour their shape contracts. -/
theorem C9_shape_invariant :
    (∀ (inputs outputs batch : Nat) (act : Activation) (opt : Optimizer)
      (rng : Nat → Nat → ℚ),
      LayerShapeOK inputs batch (NewLayer (1 + inputs) outputs act opt rng)) ∧
    (∀ (L : Layer) (inputs samples : Nat), L.Theta.rows = 1 + inputs →
      LayerShapeOK inputs samples (L.Init samples inputs)) ∧
    (∀ (Fimpl : ActivationF) (ls : List Layer) (X : Mat) (inA batch : Nat),
      ChainShapeOK batch inA ls → X.rows = batch → X.cols = inA →
      ChainShapeOK batch inA (forwardLayers Fimpl X ls)) ∧
    (∀ (lossF : LossT) (a l1 : ℚ) (n : Nat) (Y : Mat) (batch : Nat) (ls : List Layer)
      (Xl : Mat) (inA : Nat),
      ChainShapeOK batch inA ls → PredsAllocated ls → OptsShapeOK ls → LossShapeOK lossF →
      Y.rows = batch → Y.cols = chainOut inA ls →
      ChainShapeOK batch inA (backwardLayers lossF a l1 n Y Xl ls).1) :=
  ⟨fun inputs outputs batch act opt rng => NewLayer_shape inputs outputs act opt rng batch,
   fun L inputs samples h => LayerInit_shape L inputs samples h,
   fun Fimpl ls X inA batch h1 h2 h3 => (forwardLayers_shape Fimpl ls X inA batch h1 h2 h3).1,
   fun lossF a l1 n Y batch ls Xl inA h1 h2 h3 h4 h5 h6 =>
     (backwardLayers_shape lossF a l1 n Y batch ls Xl inA h1 h2 h3 h4 h5 h6).1⟩

/-- Witness for C9: all four components of the invariant theorem applied to a
concrete one-layer network, every hypothesis discharged on the concrete
values. -/
theorem C9_shape_invariant_witness :
    LayerShapeOK 1 1 (NewLayer (1 + 1) 1 Activation.identity optIdGrad (rng0 0)) ∧
    wLayer1.Theta.rows = 1 + 1 ∧
    LayerShapeOK 1 1 (wLayer1.Init 1 1) ∧
    ChainShapeOK 1 1 (forwardLayers FimplId (m11 1) [wLayer1]) ∧
    ChainShapeOK 1 1 (backwardLayers lossTheta 0 0 1 (m11 1) (m11 1) [wLayer1]).1 :=
  ⟨C9_shape_invariant.1 1 1 1 Activation.identity optIdGrad (rng0 0),
   rfl,
   C9_shape_invariant.2.1 wLayer1 1 1 rfl,
   C9_shape_invariant.2.2.1 FimplId [wLayer1] (m11 1) 1 1
     ⟨⟨rfl, rfl, rfl, rfl, rfl, rfl, rfl, rfl, rfl, rfl, rfl⟩, trivial⟩ rfl rfl,
   C9_shape_invariant.2.2.2 lossTheta 0 0 1 (m11 1) 1 [wLayer1] (m11 1) 1
     ⟨⟨rfl, rfl, rfl, rfl, rfl, rfl, rfl, rfl, rfl, rfl, rfl⟩, trivial⟩
     (by simp [PredsAllocated, wLayer1])
     (by simp [OptsShapeOK, OptShapeOK, wLayer1, optIdGrad])
     (by simp [LossShapeOK, lossTheta])
     rfl rfl⟩
